import Mathlib

/-!
Verification of the CloudLibrary audiobook downloader (`main.py`).

The script is a sequential HTTP client; we shallowly embed the pure parts
(string processing, cache updates, the borrow-retry control flow, the
chapter-download loop) as Lean functions over explicit state, with the
network modelled as an oracle trace of responses.  Strings are modelled as
`List Char` where character-level processing matters (Python strings are
sequences of code points; slicing and regex filters act on code points),
and as `String` where they are opaque dictionary keys.
-/

set_option autoImplicit false

/-! ## Data model

A decoded JSON object is an association list of string fields; Python dict
truthiness is non-emptiness. -/

/-- A brief patron/loan record as decoded from JSON (field name, field value). -/
abbrev PatronRecord := List (String × String)

/-- The module-level `loaned_books_cache` dict: item id to brief record, in
insertion order (Python dicts preserve insertion order). -/
abbrev LoanCache := List (String × PatronRecord)

/-- Python `item.get("itemId")` followed by the truthiness test
`if book_id:` — an absent or empty-string id yields nothing. -/
def itemIdOf (r : PatronRecord) : Option String :=
  match r.lookup "itemId" with
  | some s => if s = "" then none else some s
  | none => none

/-- Python dict assignment `d[k] = v`: overwrite in place when the key is
present (keeping its position), append otherwise. -/
def dictInsert : LoanCache → String → PatronRecord → LoanCache
  | [], k, v => [(k, v)]
  | (k', v') :: rest, k, v =>
      if k' = k then (k', v) :: rest else (k', v') :: dictInsert rest k v

/-! ## Loan-cache refresh

`main.py`, lines 64-70 (`cache_loaned_books`): fetch the loan list and, for
each item with a truthy `itemId`, assign it into the module-level cache.
The dict is never cleared, so the fetched records are merged into whatever
the cache already held. -/

/-- `cache_loaned_books`: fold the freshly fetched loan list into the
existing cache, one dict assignment per record with a truthy item id. -/
def cache_loaned_books (cache : LoanCache) (fetched : List PatronRecord) : LoanCache :=
  fetched.foldl
    (fun acc item =>
      match itemIdOf item with
      | some bookId => dictInsert acc bookId item
      | none => acc)
    cache

/-- The last record of `fetched` whose truthy item id equals `k`; used to
state which fetched record a dict key ends up mapped to (later assignments
overwrite earlier ones). -/
def lastMatching (k : String) : List PatronRecord → Option PatronRecord
  | [] => none
  | item :: rest =>
      Option.or (lastMatching k rest)
        (if itemIdOf item = some k then some item else none)

/-! ## Brief-metadata lookup

`main.py`, lines 289-326 (`get_book_metadata_brief`): consult the cache
when `use_cache` and the cached entry is truthy; otherwise fetch the detail
page (403 raises `PermissionError`; a response whose `book` field is absent
or falsy is dumped to `metadata_error_dump.json` and raises `KeyError`).
The function never writes to `loaned_books_cache`. -/

/-- Collapse a falsy lookup result (absent key or empty record) to `none`,
mirroring Python truthiness tests on `dict.get` results. -/
def truthy : Option PatronRecord → Option PatronRecord
  | some r => if r = [] then none else some r
  | none => none

/-- The decoded detail response: HTTP status and the JSON document, whose
`book` field (if any) holds the brief record. -/
structure DetailResp where
  status : Nat
  body : List (String × PatronRecord)
deriving DecidableEq

/-- Outcome of `get_book_metadata_brief`. -/
inductive BriefResult
  | ok (r : PatronRecord)
  | forbidden
  | notFoundBook
deriving DecidableEq

/-- Observable effects of one `get_book_metadata_brief` call: its result,
whether a network detail lookup happened, the JSON document written to
`metadata_error_dump.json` (if any), and the cache after the call. -/
structure BriefOut where
  result : BriefResult
  lookupPerformed : Bool
  dumped : Option (List (String × PatronRecord))
  cacheAfter : LoanCache
deriving DecidableEq

/-- `get_book_metadata_brief`: cache hit returns the truthy cached record
without a lookup; otherwise the detail response decides the outcome.  No
branch modifies the cache. -/
def get_book_metadata_brief (cache : LoanCache) (mediaId : String)
    (useCache : Bool) (resp : DetailResp) : BriefOut :=
  match truthy (if useCache then cache.lookup mediaId else none) with
  | some c => ⟨.ok c, false, none, cache⟩
  | none =>
      if resp.status = 403 then ⟨.forbidden, true, none, cache⟩
      else
        match truthy (resp.body.lookup "book") with
        | some b => ⟨.ok b, true, none, cache⟩
        | none => ⟨.notFoundBook, true, some resp.body, cache⟩

/-! ## Borrow with eviction retry

`main.py`, lines 218-281 (`borrow_book`).  The server is modelled as a
trace of responses to successive borrow requests; a too-many-loans
response also carries the environment's answers to the `return_book` call
and `cache_loaned_books` refresh that the code then performs (the real
transports always produce an answer).  The cache is abstracted to its key
list; `next(iter(loaned_books_cache))` evicts the first key. -/

/-- One server response to a borrow request, as classified by `borrow_book`:
non-200 status, JSON decode failure, a too-many-loans error (bundled with
the results of the return call and the cache refresh the code then issues),
any other error object, a FAILED status field, or success. -/
inductive BorrowResp
  | httpError (code : Nat)
  | decodeFailure
  | tooManyLoans (returnOk : Bool) (refreshedCache : List String)
  | otherError (msg : String)
  | statusFailed
  | ok
deriving DecidableEq

/-- Calls issued during one `borrow_book` invocation: `return_book` calls,
`cache_loaned_books` refreshes, and recursive (retried) borrow requests. -/
structure BorrowCounts where
  returnCalls : Nat
  refreshCalls : Nat
  retriedBorrows : Nat
deriving DecidableEq

/-- `borrow_book` over a response trace: returns the boolean result and the
counts of return/refresh/retry calls issued.  On a too-many-loans error
with a non-empty cache it returns one book; if that succeeds it refreshes
the cache and recurses on the rest of the trace; otherwise it fails.  An
exhausted trace (unreachable for the real blocking transport) fails. -/
def borrow_book (cache : List String) : List BorrowResp → Bool × BorrowCounts
  | [] => (false, ⟨0, 0, 0⟩)
  | .httpError _ :: _ => (false, ⟨0, 0, 0⟩)
  | .decodeFailure :: _ => (false, ⟨0, 0, 0⟩)
  | .otherError _ :: _ => (false, ⟨0, 0, 0⟩)
  | .statusFailed :: _ => (false, ⟨0, 0, 0⟩)
  | .ok :: _ => (true, ⟨0, 0, 0⟩)
  | .tooManyLoans returnOk refreshedCache :: rest =>
      match cache with
      | [] => (false, ⟨0, 0, 0⟩)
      | _ :: _ =>
          if returnOk then
            let res := borrow_book refreshedCache rest
            (res.1, ⟨res.2.returnCalls + 1, res.2.refreshCalls + 1,
                     res.2.retriedBorrows + 1⟩)
          else (false, ⟨1, 0, 0⟩)

/-! ## Folder-name sanitization

`main.py`, lines 386-388:
`folder_name = f"{book_id} - {first_author} - {title}"` followed by
`re.sub(r"[^\w\-_. ]", "", folder_name).strip()[:100]`. -/

/-- ASCII reading of the regex word class: alphanumeric or underscore. -/
def isWordChar (c : Char) : Bool := c.isAlphanum || c == '_'

/-- Character class kept by the substitution: word characters, hyphen,
underscore, period, space (the regex deletes the complement class). -/
def allowedChar (c : Char) : Bool :=
  isWordChar c || c == '-' || c == '_' || c == '.' || c == ' '

/-- Whitespace removed by Python `str.strip` with no argument. -/
def pyWhitespace (c : Char) : Bool :=
  c == ' ' || c == '\t' || c == '\n' || c == '\r' || c == '\x0b' || c == '\x0c'

/-- Python `str.strip()`: drop leading and trailing whitespace. -/
def pyStrip (l : List Char) : List Char :=
  ((l.dropWhile pyWhitespace).reverse.dropWhile pyWhitespace).reverse

/-- Sanitization applied to the folder name in `download_book`:
`re.sub(r"[^\w\-_. ]", "", s).strip()[:100]`. -/
def folder_name (s : List Char) : List Char :=
  (pyStrip (s.filter allowedChar)).take 100

/-- The f-string the folder name is derived from:
`f"{book_id} - {first_author} - {title}"`. -/
def folderSource (bookId firstAuthor title : List Char) : List Char :=
  bookId ++ (" - ").data ++ firstAuthor ++ (" - ").data ++ title

/-! ## File-extension inference

`main.py`, line 397: `file_ext = chapter["url"][::-1].split(".")[0][::-1]` —
reverse the URL, take the segment before the first '.', reverse back; i.e.
the substring after the last '.', or the whole string when there is none. -/

/-- Extension inference from `download_book`:
`url[::-1].split(".")[0][::-1]`. -/
def fileExt (url : List Char) : List Char :=
  (url.reverse.takeWhile (fun c => c != '.')).reverse

/-! ## Series-string splitting

`main.py`, lines 417-426: `re.search(r" #(\d+)$", series_string)`; on a match
`number = match.group(1)`, `name = series_string[: match.start()]`, else
`number = ""`, `name = series_string`.  Because the digits of any match run
to the end of the string and the characters space and hash are not digits,
the regex matches iff the maximal trailing digit run is non-empty and is
immediately preceded by the two characters hash and space (read backwards);
the matched digits are exactly that run. -/

/-- Series split from `download_book`, as (name, number). -/
def seriesSplit (s : List Char) : List Char × List Char :=
  let r := s.reverse
  let ds := r.takeWhile Char.isDigit
  let rest := r.dropWhile Char.isDigit
  if ds ≠ [] ∧ rest.take 2 = ['#', ' '] then ((rest.drop 2).reverse, ds.reverse)
  else (s, [])

/-! ## Title composition

`main.py`, lines 413-415 and 430: `subtitle = audiobook_meta_brief.get("SubTitle")`;
`if subtitle and subtitle.lower() == "a novel": subtitle = None`; then the
composed title is `f"{title}: {subtitle}" if subtitle else title`. -/

/-- Composed title from `download_book` (the `"title"` field of the fast
fillout record).  `Char.toLower` is the ASCII reading of `str.lower`. -/
def composeTitle (title : List Char) (subTitle : Option (List Char)) : List Char :=
  let sub : Option (List Char) :=
    match subTitle with
    | some s => if s ≠ [] ∧ s.map Char.toLower = ("a novel").data then none else some s
    | none => none
  match sub with
  | some s => if s ≠ [] then title ++ (": ").data ++ s else title
  | none => title

/-! ## Chapter-download loop

`main.py`, lines 392-411: `zip(audiobook_playlist, audiobook_loan["items"])`
pairs playlist entries with chapter records positionally; for each pair the
target path is computed from a zero-padded one-based index, the chapter
title and the inferred extension; an existing file is skipped, otherwise
the body is fetched and written. -/

/-- What the loop does for one chapter file: skip an existing file, or
fetch the URL and write the body to the path. -/
inductive FileAction
  | skip (path : List Char)
  | fetchWrite (url : List Char) (path : List Char)
deriving DecidableEq

/-- Python `"%0Wd" % n`: decimal digits left-padded with zeros to width `w`
(never truncated). -/
def zeroPad (w : Nat) (n : Nat) : List Char :=
  let s := (Nat.repr n).data
  List.replicate (w - s.length) '0' ++ s

/-- `os.path.join` for the relative paths the script builds. -/
def pathJoin (a b : List Char) : List Char := a ++ '/' :: b

/-- Target path of one chapter: directory, zero-padded index, literal
" - ", chapter title, '.', inferred extension. -/
def chapterFilePath (dir : List Char) (w : Nat) (idx : Nat)
    (pair : List Char × List Char) : List Char :=
  pathJoin dir (zeroPad w idx ++ (" - ").data ++ pair.2 ++ '.' :: fileExt pair.1)

/-- The download loop over the zipped (playlist url, chapter title) pairs,
starting at `chapter_idx = 1`, against a set of already-existing paths. -/
def chapterLoop (dir : List Char) (existing : List (List Char)) (w : Nat) :
    List (List Char × List Char) → Nat → List FileAction
  | [], _ => []
  | pair :: rest, idx =>
      let path := chapterFilePath dir w idx pair
      (if path ∈ existing then FileAction.skip path
       else FileAction.fetchWrite pair.1 path) ::
        chapterLoop dir existing w rest (idx + 1)

/-- The target chapter paths the loop computes, in order. -/
def targetChapterPaths (dir : List Char) (w : Nat) :
    List (List Char × List Char) → Nat → List (List Char)
  | [], _ => []
  | pair :: rest, idx =>
      chapterFilePath dir w idx pair :: targetChapterPaths dir w rest (idx + 1)

/-- Paths written by the loop (one per fetched chapter body). -/
def writeOps (actions : List FileAction) : List (List Char) :=
  actions.filterMap fun a =>
    match a with
    | .fetchWrite _ p => some p
    | .skip _ => none

/-- URLs whose bodies the loop transfers (one per non-skipped chapter). -/
def transferCalls (actions : List FileAction) : List (List Char) :=
  actions.filterMap fun a =>
    match a with
    | .fetchWrite u _ => some u
    | .skip _ => none

/-! ## The download_book pipeline

`main.py`, lines 329-448, restricted to its pure observable outputs:
the output directory, the file actions of the chapter loop, the composed
title and the split series list. -/

/-- Brief metadata fields `download_book` reads: `title` and the optional
`SubTitle`. -/
structure BriefMeta where
  title : List Char
  subTitle : Option (List Char)

/-- Pure observable outcome of one `download_book` run.  `targetPaths`
records the chapter paths the loop computes (they do not depend on which
files already exist). -/
structure DownloadOutcome where
  outputDirectory : List Char
  actions : List FileAction
  targetPaths : List (List Char)
  composedTitle : List Char
  series : List (List Char × List Char)

/-- `download_book`: derive the sanitized output directory from item id,
first listed author (empty when the author list is empty) and title; run
the chapter loop over the positionally zipped playlist/item lists with the
zero-pad width `len(str(len(items)))`; compose the title and split the
series strings. -/
def download_book (bookId : List Char) (brief : BriefMeta)
    (authors : List (List Char)) (seriesStrings : List (List Char))
    (playlistUrls : List (List Char)) (itemTitles : List (List Char))
    (existing : List (List Char)) : DownloadOutcome :=
  let firstAuthor := authors.headD []
  let dir := pathJoin ("audiobooks").data
    (folder_name (folderSource bookId firstAuthor brief.title))
  let w := (Nat.repr itemTitles.length).length
  { outputDirectory := dir
    actions := chapterLoop dir existing w (playlistUrls.zip itemTitles) 1
    targetPaths := targetChapterPaths dir w (playlistUrls.zip itemTitles) 1
    composedTitle := composeTitle brief.title brief.subTitle
    series := seriesStrings.map seriesSplit }

/-! ## Generic list lemmas -/

theorem takeWhile_append_all {α : Type} (p : α → Bool) (l l' : List α)
    (h : ∀ a ∈ l, p a) : (l ++ l').takeWhile p = l ++ l'.takeWhile p := by
  induction l with
  | nil => rfl
  | cons a t ih =>
      have ha : p a := h a (List.mem_cons_self a t)
      simp [List.takeWhile_cons_of_pos ha, ih (fun b hb => h b (List.mem_cons_of_mem a hb))]

theorem dropWhile_append_all {α : Type} (p : α → Bool) (l l' : List α)
    (h : ∀ a ∈ l, p a) : (l ++ l').dropWhile p = l'.dropWhile p := by
  induction l with
  | nil => rfl
  | cons a t ih =>
      have ha : p a := h a (List.mem_cons_self a t)
      simp [List.dropWhile_cons_of_pos ha, ih (fun b hb => h b (List.mem_cons_of_mem a hb))]

theorem takeWhile_eq_self_all {α : Type} (p : α → Bool) (l : List α)
    (h : ∀ a ∈ l, p a) : l.takeWhile p = l := by
  have := takeWhile_append_all p l [] h
  simpa using this

theorem mem_of_mem_dropWhile {α : Type} (p : α → Bool) {a : α} {l : List α}
    (h : a ∈ l.dropWhile p) : a ∈ l := by
  induction l with
  | nil => simp [List.dropWhile] at h
  | cons b t ih =>
      by_cases hb : p b
      · exact List.mem_cons_of_mem b (ih (by simpa [List.dropWhile_cons_of_pos hb] using h))
      · simpa [List.dropWhile_cons_of_neg hb] using h

theorem mem_of_mem_takeWhile {α : Type} (p : α → Bool) {a : α} {l : List α}
    (h : a ∈ l.takeWhile p) : a ∈ l := by
  induction l with
  | nil => simp [List.takeWhile] at h
  | cons b t ih =>
      by_cases hb : p b
      · rcases (by simpa [List.takeWhile_cons_of_pos hb] using h : a = b ∨ a ∈ t.takeWhile p) with h' | h'
        · simp [h']
        · exact List.mem_cons_of_mem b (ih h')
      · simp [List.takeWhile_cons_of_neg hb] at h

theorem prop_of_mem_takeWhile {α : Type} (p : α → Bool) {a : α} {l : List α}
    (h : a ∈ l.takeWhile p) : p a := by
  induction l with
  | nil => simp [List.takeWhile] at h
  | cons b t ih =>
      by_cases hb : p b
      · rcases (by simpa [List.takeWhile_cons_of_pos hb] using h : a = b ∨ a ∈ t.takeWhile p) with h' | h'
        · exact h' ▸ hb
        · exact ih h'
      · simp [List.takeWhile_cons_of_neg hb] at h

theorem mem_of_mem_pyStrip {a : Char} {l : List Char} (h : a ∈ pyStrip l) : a ∈ l := by
  unfold pyStrip at h
  rw [List.mem_reverse] at h
  have h1 := mem_of_mem_dropWhile pyWhitespace h
  rw [List.mem_reverse] at h1
  exact mem_of_mem_dropWhile pyWhitespace h1

/-! ## Claim C6: folder-name sanitization -/

/-- Claim C6: for every input string built from item id, first listed
author and title, the sanitized folder name has length at most 100 and
contains only word characters, hyphen, underscore, period and space. -/
theorem folder_name_sanitized (bookId firstAuthor title : List Char) :
    (folder_name (folderSource bookId firstAuthor title)).length ≤ 100 ∧
    ∀ c ∈ folder_name (folderSource bookId firstAuthor title), allowedChar c := by
  constructor
  · exact List.length_take_le 100 _
  · intro c hc
    have hc1 : c ∈ pyStrip ((folderSource bookId firstAuthor title).filter allowedChar) :=
      List.mem_of_mem_take hc
    have hc2 := mem_of_mem_pyStrip hc1
    exact (List.mem_filter.mp hc2).2

/-- Claim C6 witness: the theorem applied at a concrete id, author, title. -/
theorem folder_name_sanitized_witness :
    (folder_name (folderSource ("ab12cd").data ("Jane Doe").data ("T/tle? x").data)).length ≤ 100 ∧
    allowedChar 'J' = true :=
  ⟨(folder_name_sanitized ("ab12cd").data ("Jane Doe").data ("T/tle? x").data).1,
   (folder_name_sanitized ("ab12cd").data ("Jane Doe").data ("T/tle? x").data).2 'J' (by decide)⟩

/-! ## Claim C9: file-extension inference -/

/-- Claim C9: the inferred extension is the substring after the last dot of
the URL, and the whole URL when it contains no dot. -/
theorem fileExt_last_dot (url a b : List Char) :
    (url = a ++ '.' :: b → '.' ∉ b → fileExt url = b) ∧
    ('.' ∉ url → fileExt url = url) := by
  constructor
  · intro hurl hb
    subst hurl
    have hall : ∀ c ∈ b.reverse, (c != '.') = true := by
      intro c hc
      have hcb : c ∈ b := List.mem_reverse.mp hc
      have hne : c ≠ '.' := fun h => hb (h ▸ hcb)
      simpa using hne
    unfold fileExt
    rw [show (a ++ '.' :: b).reverse = b.reverse ++ '.' :: a.reverse by simp]
    rw [takeWhile_append_all _ _ _ hall, List.takeWhile_cons_of_neg (by simp)]
    simp
  · intro hurl
    have hall : ∀ c ∈ url.reverse, (c != '.') = true := by
      intro c hc
      have hcb : c ∈ url := List.mem_reverse.mp hc
      have hne : c ≠ '.' := fun h => hurl (h ▸ hcb)
      simpa using hne
    unfold fileExt
    rw [takeWhile_eq_self_all _ _ hall, List.reverse_reverse]

/-- Claim C9 witness: the theorem applied to a URL with a dot and one
without. -/
theorem fileExt_last_dot_witness :
    fileExt ("chapter.mp3").data = ("mp3").data ∧
    fileExt ("noext").data = ("noext").data :=
  ⟨(fileExt_last_dot ("chapter.mp3").data ("chapter").data ("mp3").data).1
      (by decide) (by decide),
   (fileExt_last_dot ("noext").data [] []).2 (by decide)⟩

/-! ## Claim C7: series-string splitting -/

/-- Claim C7: a series string ending in space, hash, digits splits into the
prefix before the match and the digits; any other string splits into the
whole string and the empty number. -/
theorem seriesSplit_suffix (pre ds s : List Char) :
    (ds ≠ [] → (∀ c ∈ ds, c.isDigit) →
        seriesSplit (pre ++ ' ' :: '#' :: ds) = (pre, ds)) ∧
    ((¬ ∃ pre' ds' : List Char, ds' ≠ [] ∧ (∀ c ∈ ds', c.isDigit) ∧
        s = pre' ++ ' ' :: '#' :: ds') →
        seriesSplit s = (s, [])) := by
  constructor
  · intro hne hdig
    have hall : ∀ c ∈ ds.reverse, Char.isDigit c := fun c hc => hdig c (List.mem_reverse.mp hc)
    have hrev : (pre ++ ' ' :: '#' :: ds).reverse = ds.reverse ++ '#' :: ' ' :: pre.reverse := by
      simp
    have htake : ((pre ++ ' ' :: '#' :: ds).reverse).takeWhile Char.isDigit = ds.reverse := by
      rw [hrev, takeWhile_append_all _ _ _ hall, List.takeWhile_cons_of_neg (by decide)]
      simp
    have hdrop : ((pre ++ ' ' :: '#' :: ds).reverse).dropWhile Char.isDigit
        = '#' :: ' ' :: pre.reverse := by
      rw [hrev, dropWhile_append_all _ _ _ hall, List.dropWhile_cons_of_neg (by decide)]
    have hdsne : ds.reverse ≠ [] := by simpa using hne
    simp only [seriesSplit, htake, hdrop]
    rw [if_pos ⟨hdsne, rfl⟩]
    simp
  · intro hno
    by_cases hcond : (s.reverse.takeWhile Char.isDigit ≠ [] ∧
        (s.reverse.dropWhile Char.isDigit).take 2 = ['#', ' '])
    · exfalso
      apply hno
      refine ⟨((s.reverse.dropWhile Char.isDigit).drop 2).reverse,
              (s.reverse.takeWhile Char.isDigit).reverse, ?_, ?_, ?_⟩
      · simpa using hcond.1
      · intro c hc
        exact prop_of_mem_takeWhile Char.isDigit (List.mem_reverse.mp hc)
      · have hsplit : s.reverse.takeWhile Char.isDigit ++ s.reverse.dropWhile Char.isDigit
            = s.reverse := List.takeWhile_append_dropWhile Char.isDigit s.reverse
        have hd2 : s.reverse.dropWhile Char.isDigit
            = '#' :: ' ' :: (s.reverse.dropWhile Char.isDigit).drop 2 := by
          conv_lhs => rw [← List.take_append_drop 2 (s.reverse.dropWhile Char.isDigit)]
          rw [hcond.2]
          rfl
        calc s = s.reverse.reverse := (List.reverse_reverse s).symm
          _ = (s.reverse.takeWhile Char.isDigit ++ s.reverse.dropWhile Char.isDigit).reverse := by
              rw [hsplit]
          _ = (s.reverse.dropWhile Char.isDigit).reverse
                ++ (s.reverse.takeWhile Char.isDigit).reverse := by
              rw [List.reverse_append]
          _ = ('#' :: ' ' :: (s.reverse.dropWhile Char.isDigit).drop 2).reverse
                ++ (s.reverse.takeWhile Char.isDigit).reverse := by
              rw [← hd2]
          _ = ((s.reverse.dropWhile Char.isDigit).drop 2).reverse
                ++ ' ' :: '#' :: (s.reverse.takeWhile Char.isDigit).reverse := by
              simp
    · simp only [seriesSplit]
      rw [if_neg hcond]

/-- Claim C7 witness: the theorem applied to a string with the numbered
suffix and to one without it. -/
theorem seriesSplit_suffix_witness :
    seriesSplit ("Dune #12").data = (("Dune").data, ("12").data) ∧
    seriesSplit [] = (([] : List Char), []) :=
  ⟨by
      have h := (seriesSplit_suffix ("Dune").data ("12").data []).1
        (by decide) (by decide)
      simpa using h,
   (seriesSplit_suffix [] [] []).2 (by
      rintro ⟨p, d, hd, -, heq⟩
      have hlen := congrArg List.length heq
      simp only [List.length_nil, List.length_append, List.length_cons] at hlen
      omega)⟩

/-! ## Claim C5: subtitle suppression -/

/-- Claim C5 counterexample: an empty subtitle differs case-insensitively
from "a novel", yet it is not appended after a colon — the code tests
truthiness first, so the composed title is the bare title. -/
theorem composeTitle_counterexample :
    composeTitle ("T").data (some []) = ("T").data ∧
    ("T").data ≠ ("T").data ++ (": ").data ++ ([] : List Char) := by
  constructor
  · decide
  · decide

/-- Claim C5 (amended): a subtitle equal case-insensitively to "a novel",
or an empty subtitle, never appears in the composed title; any other
non-empty subtitle is appended after a colon. -/
theorem composeTitle_spec (title s : List Char) :
    (composeTitle title none = title) ∧
    (s.map Char.toLower = ("a novel").data → composeTitle title (some s) = title) ∧
    (s = [] → composeTitle title (some s) = title) ∧
    (s ≠ [] → s.map Char.toLower ≠ ("a novel").data →
        composeTitle title (some s) = title ++ (": ").data ++ s) := by
  refine ⟨rfl, ?_, ?_, ?_⟩
  · intro h
    have hne : s ≠ [] := by
      intro h0
      rw [h0] at h
      simp at h
    simp only [composeTitle]
    rw [if_pos ⟨hne, h⟩]
  · intro h0
    subst h0
    simp [composeTitle]
  · intro hne hnot
    simp only [composeTitle]
    rw [if_neg (fun hand => hnot hand.2)]
    simp [hne]

/-- Claim C5 witness: the theorem applied to the suppressed placeholder,
an empty subtitle, and an ordinary subtitle. -/
theorem composeTitle_spec_witness :
    composeTitle ("T").data (some ("A Novel").data) = ("T").data ∧
    composeTitle ("T").data (some []) = ("T").data ∧
    composeTitle ("T").data (some ("Memoir").data) = ("T: Memoir").data := by
  refine ⟨(composeTitle_spec ("T").data ("A Novel").data).2.1 (by decide),
          (composeTitle_spec ("T").data []).2.2.1 rfl, ?_⟩
  have h := (composeTitle_spec ("T").data ("Memoir").data).2.2.2 (by decide) (by decide)
  rw [h]
  decide

/-! ## Claim C8: positional pairing of playlist and chapter list -/

theorem chapterLoop_length (dir : List Char) (existing : List (List Char)) (w : Nat)
    (pairs : List (List Char × List Char)) (idx : Nat) :
    (chapterLoop dir existing w pairs idx).length = pairs.length := by
  induction pairs generalizing idx with
  | nil => rfl
  | cons pair rest ih => simp [chapterLoop, ih]

/-- Claim C8: the chapter loop processes exactly
min(length of playlist, length of item list) positional pairs; extra
entries of the longer list are ignored and no error is raised (the loop is
a total function on the zipped lists). -/
theorem download_book_pair_count (bookId : List Char) (brief : BriefMeta)
    (authors seriesStrings playlistUrls itemTitles existing : List (List Char)) :
    (download_book bookId brief authors seriesStrings playlistUrls itemTitles
        existing).actions.length = min playlistUrls.length itemTitles.length := by
  simp [download_book, chapterLoop_length, List.length_zip]

/-! ## Claim C4: idempotent re-download -/

theorem chapterLoop_all_skip (dir : List Char) (existing : List (List Char)) (w : Nat)
    (pairs : List (List Char × List Char)) (idx : Nat)
    (h : ∀ p ∈ targetChapterPaths dir w pairs idx, p ∈ existing) :
    writeOps (chapterLoop dir existing w pairs idx) = [] ∧
    transferCalls (chapterLoop dir existing w pairs idx) = [] := by
  induction pairs generalizing idx with
  | nil => exact ⟨rfl, rfl⟩
  | cons pair rest ih =>
      have hp : chapterFilePath dir w idx pair ∈ existing :=
        h _ (by simp [targetChapterPaths])
      have hrest := ih (idx + 1) (fun p hp' => h p (by simp [targetChapterPaths, hp']))
      simpa [chapterLoop, hp, writeOps, transferCalls] using hrest

/-- Claim C4: when every target chapter file already exists, the download
performs zero write operations and zero byte-transfer calls for those
files, and still returns the same output directory as an invocation that
found none of them. -/
theorem download_book_idempotent (bookId : List Char) (brief : BriefMeta)
    (authors seriesStrings playlistUrls itemTitles existing1 existing2 : List (List Char))
    (h : ∀ p ∈ (download_book bookId brief authors seriesStrings playlistUrls itemTitles
        existing2).targetPaths, p ∈ existing2) :
    writeOps (download_book bookId brief authors seriesStrings playlistUrls itemTitles
        existing2).actions = [] ∧
    transferCalls (download_book bookId brief authors seriesStrings playlistUrls itemTitles
        existing2).actions = [] ∧
    (download_book bookId brief authors seriesStrings playlistUrls itemTitles
        existing2).outputDirectory =
      (download_book bookId brief authors seriesStrings playlistUrls itemTitles
        existing1).outputDirectory := by
  simp only [download_book] at h ⊢
  have hall := chapterLoop_all_skip _ existing2 _ (playlistUrls.zip itemTitles) 1 h
  exact ⟨hall.1, hall.2, trivial⟩

/-- Claim C4 witness: a one-chapter download whose target file is already
present performs no write and no transfer. -/
theorem download_book_idempotent_witness :
    writeOps (download_book ("b1").data ⟨("T").data, none⟩ [("A").data] []
        [("ch1.mp3").data] [("Ch").data]
        (download_book ("b1").data ⟨("T").data, none⟩ [("A").data] []
          [("ch1.mp3").data] [("Ch").data] []).targetPaths).actions = [] :=
  (download_book_idempotent ("b1").data ⟨("T").data, none⟩ [("A").data] []
    [("ch1.mp3").data] [("Ch").data] []
    (download_book ("b1").data ⟨("T").data, none⟩ [("A").data] []
      [("ch1.mp3").data] [("Ch").data] []).targetPaths
    (fun _ hp => hp)).1

/-! ## Claim C1: borrow with eviction retry -/

/-- Claim C1 counterexample: when the retried borrow itself receives a
too-many-loans error, a second return, refresh and retried borrow occur —
the invocation received the error with a non-empty cache, yet issues two
retried borrow calls, not exactly one; recursion is not limited to a
single level. -/
theorem borrow_book_counterexample :
    (["a"] : List String) ≠ [] ∧
    (borrow_book ["a"]
        [.tooManyLoans true ["b"], .tooManyLoans true ["c"], .ok]).2
      = ⟨2, 2, 2⟩ ∧
    (2 : Nat) ≠ 1 := by
  refine ⟨by decide, by decide, by decide⟩

/-- Claim C1 (amended): on a too-many-loans response with an empty cache,
borrow fails with no return, refresh or retry; with a non-empty cache it
issues exactly one return call at this level, and if the return fails it
stops there and fails, while if the return succeeds it performs exactly
one refresh and one retried borrow whose own calls add to the totals (the
retried call may repeat the eviction step on further too-many-loans
responses). -/
theorem borrow_book_retry (cache refreshedCache : List String) (returnOk : Bool)
    (rest : List BorrowResp) :
    (borrow_book [] (.tooManyLoans returnOk refreshedCache :: rest) = (false, ⟨0, 0, 0⟩)) ∧
    (cache ≠ [] → returnOk = false →
        borrow_book cache (.tooManyLoans returnOk refreshedCache :: rest)
          = (false, ⟨1, 0, 0⟩)) ∧
    (cache ≠ [] → returnOk = true →
        borrow_book cache (.tooManyLoans returnOk refreshedCache :: rest)
          = ((borrow_book refreshedCache rest).1,
             ⟨(borrow_book refreshedCache rest).2.returnCalls + 1,
              (borrow_book refreshedCache rest).2.refreshCalls + 1,
              (borrow_book refreshedCache rest).2.retriedBorrows + 1⟩)) := by
  refine ⟨rfl, ?_, ?_⟩
  · intro hne hro
    subst hro
    cases cache with
    | nil => exact absurd rfl hne
    | cons a t => simp [borrow_book]
  · intro hne hro
    subst hro
    cases cache with
    | nil => exact absurd rfl hne
    | cons a t => simp [borrow_book]

/-- Claim C1 witness: the amended theorem applied to a failing return and
to a successful return followed by a successful retried borrow. -/
theorem borrow_book_retry_witness :
    borrow_book ["x"] [.tooManyLoans false ["y"]] = (false, ⟨1, 0, 0⟩) ∧
    borrow_book ["x"] [.tooManyLoans true ["y"], .ok] = (true, ⟨1, 1, 1⟩) := by
  constructor
  · exact (borrow_book_retry ["x"] ["y"] false []).2.1 (by decide) rfl
  · have h := (borrow_book_retry ["x"] ["y"] true [.ok]).2.2 (by decide) rfl
    rw [h]
    rfl

/-! ## Claims C2 and C10: the cache refresh merges -/

theorem lookup_dictInsert (m : LoanCache) (k k' : String) (v : PatronRecord) :
    (dictInsert m k v).lookup k' = if k = k' then some v else m.lookup k' := by
  induction m with
  | nil =>
      by_cases h : k = k'
      · subst h
        simp [dictInsert, List.lookup]
      · have hb : (k' == k) = false := by
          simp only [beq_eq_false_iff_ne, ne_eq]
          exact fun hkk => h hkk.symm
        simp [dictInsert, List.lookup, hb, h]
  | cons q rest ih =>
      obtain ⟨a, b⟩ := q
      by_cases hak : a = k
      · subst hak
        by_cases h : a = k'
        · subst h
          simp [dictInsert, List.lookup]
        · have hb : (k' == a) = false := by
            simp only [beq_eq_false_iff_ne, ne_eq]
            exact fun hkk => h hkk.symm
          simp [dictInsert, List.lookup, hb, h]
      · by_cases h : a = k'
        · subst h
          have hka : ¬ k = a := fun hk => hak hk.symm
          simp [dictInsert, hak, List.lookup, hka]
        · have hb : (k' == a) = false := by
            simp only [beq_eq_false_iff_ne, ne_eq]
            exact fun hkk => h hkk.symm
          simp [dictInsert, hak, List.lookup, hb, ih]

theorem lookup_refresh_step (cache : LoanCache) (item : PatronRecord) (k : String) :
    ((match itemIdOf item with
      | some bookId => dictInsert cache bookId item
      | none => cache).lookup k)
      = Option.or (if itemIdOf item = some k then some item else none) (cache.lookup k) := by
  cases hid : itemIdOf item with
  | none => simp [Option.or]
  | some bookId =>
      by_cases hk : bookId = k
      · subst hk
        simp [lookup_dictInsert, Option.or]
      · simp [lookup_dictInsert, hk, Option.or, fun h : some bookId = some k =>
          hk (Option.some.inj h)]

/-- Claim C2 counterexample: refreshing against an empty fetched loan list
leaves the previously cached entry in place — the cache is not replaced by
the fetched mapping, which here would be empty. -/
theorem cache_loaned_books_counterexample :
    cache_loaned_books [("a", [("title", "x")])] [] = [("a", [("title", "x")])] ∧
    [("a", [("title", "x")])] ≠ ([] : LoanCache) := by
  exact ⟨rfl, by decide⟩

/-- Claim C2 (amended): refreshing merges the fetched loan list into the
cache: afterwards a key maps to the last fetched record whose truthy item
id equals it, and otherwise to whatever the cache held before — fetched
entries overwrite same-id entries, but prior entries with other ids
survive (merge, not wholesale replacement). -/
theorem cache_loaned_books_merges (fetched : List PatronRecord) (cache : LoanCache)
    (k : String) :
    (cache_loaned_books cache fetched).lookup k
      = Option.or (lastMatching k fetched) (cache.lookup k) := by
  induction fetched generalizing cache with
  | nil => simp [cache_loaned_books, lastMatching, Option.or]
  | cons item rest ih =>
      have hstep : cache_loaned_books cache (item :: rest)
          = cache_loaned_books
              (match itemIdOf item with
                | some bookId => dictInsert cache bookId item
                | none => cache) rest := rfl
      rw [hstep, ih, lookup_refresh_step]
      show _ = Option.or
        (Option.or (lastMatching k rest) (if itemIdOf item = some k then some item else none))
        (cache.lookup k)
      cases lastMatching k rest <;> simp [Option.or]

theorem mem_dictInsert (m : LoanCache) (k : String) (v : PatronRecord)
    {p : String × PatronRecord} (h : p ∈ dictInsert m k v) : p ∈ m ∨ p.1 = k := by
  induction m with
  | nil =>
      simp [dictInsert] at h
      exact Or.inr (by rw [h])
  | cons q rest ih =>
      obtain ⟨a, b⟩ := q
      by_cases hak : a = k
      · subst hak
        simp [dictInsert] at h
        rcases h with h | h
        · exact Or.inr (by rw [h])
        · exact Or.inl (List.mem_cons_of_mem _ h)
      · simp [dictInsert, hak] at h
        rcases h with h | h
        · exact Or.inl (by simp [h])
        · rcases ih h with h' | h'
          · exact Or.inl (List.mem_cons_of_mem _ h')
          · exact Or.inr h'

theorem length_dictInsert_le (m : LoanCache) (k : String) (v : PatronRecord) :
    (dictInsert m k v).length ≤ m.length + 1 := by
  induction m with
  | nil => simp [dictInsert]
  | cons q rest ih =>
      obtain ⟨a, b⟩ := q
      by_cases hak : a = k
      · subst hak
        simp [dictInsert]
      · simp only [dictInsert, if_neg hak, List.length_cons]
        omega

theorem cache_refresh_keys_from (fetched : List PatronRecord) (cache : LoanCache)
    {p : String × PatronRecord} (h : p ∈ cache_loaned_books cache fetched) :
    (∃ q ∈ cache, q.1 = p.1) ∨ ∃ r ∈ fetched, itemIdOf r = some p.1 := by
  induction fetched generalizing cache with
  | nil => exact Or.inl ⟨p, h, rfl⟩
  | cons item rest ih =>
      have hstep : cache_loaned_books cache (item :: rest)
          = cache_loaned_books
              (match itemIdOf item with
                | some bookId => dictInsert cache bookId item
                | none => cache) rest := rfl
      rw [hstep] at h
      rcases ih _ h with ⟨q, hq, hq1⟩ | ⟨r, hr, hr1⟩
      · cases hid : itemIdOf item with
        | none =>
            rw [hid] at hq
            exact Or.inl ⟨q, hq, hq1⟩
        | some bookId =>
            rw [hid] at hq
            rcases mem_dictInsert cache bookId item hq with h' | h'
            · exact Or.inl ⟨q, h', hq1⟩
            · exact Or.inr ⟨item, List.mem_cons_self _ _, by rw [hid, ← hq1, h']⟩
      · exact Or.inr ⟨r, List.mem_cons_of_mem _ hr, hr1⟩

theorem cache_refresh_length_le (fetched : List PatronRecord) (cache : LoanCache) :
    (cache_loaned_books cache fetched).length ≤
      cache.length + (fetched.filter (fun r => (itemIdOf r).isSome)).length := by
  induction fetched generalizing cache with
  | nil => simp [cache_loaned_books]
  | cons item rest ih =>
      have hstep : cache_loaned_books cache (item :: rest)
          = cache_loaned_books
              (match itemIdOf item with
                | some bookId => dictInsert cache bookId item
                | none => cache) rest := rfl
      rw [hstep]
      cases hid : itemIdOf item with
      | none =>
          simp only [hid]
          have := ih cache
          simpa [List.filter_cons, hid] using this
      | some bookId =>
          simp only [hid]
          have h1 := ih (dictInsert cache bookId item)
          have h2 := length_dictInsert_le cache bookId item
          have h3 : ((item :: rest).filter (fun r => (itemIdOf r).isSome)).length
              = (rest.filter (fun r => (itemIdOf r).isSome)).length + 1 := by
            simp [List.filter_cons, hid]
          omega

/-- Claim C10 counterexample: after a refresh the cache can be strictly
larger than the fetched loan list (pre-existing entries survive, and a
fetched record without a truthy item id is skipped), so its size is not
bounded by the fetched list's length. -/
theorem cache_refresh_size_counterexample :
    (cache_loaned_books [("a", []), ("b", [])] [[("x", "y")]]).length = 2 ∧
    ¬ ((cache_loaned_books [("a", []), ("b", [])] [[("x", "y")]]).length
        ≤ ([[("x", "y")]] : List PatronRecord).length) := by
  exact ⟨by decide, by decide⟩

/-- Claim C10 (amended): every key present after a refresh is either a
pre-existing key or the truthy item id of a fetched record; fetched
records whose item id is absent or falsy are silently skipped; a truthy
item id is never the empty string; and the refresh adds at most one entry
per fetched record with a truthy item id (rather than the cache size being
bounded by the fetched list's length). -/
theorem cache_loaned_books_keys (cache : LoanCache) (fetched : List PatronRecord) :
    (∀ p ∈ cache_loaned_books cache fetched,
        (∃ q ∈ cache, q.1 = p.1) ∨ ∃ r ∈ fetched, itemIdOf r = some p.1) ∧
    (∀ r : PatronRecord, ∀ k : String, itemIdOf r = some k → k ≠ "") ∧
    (cache_loaned_books cache fetched).length ≤
      cache.length + (fetched.filter (fun r => (itemIdOf r).isSome)).length := by
  refine ⟨fun p hp => cache_refresh_keys_from fetched cache hp, ?_,
    cache_refresh_length_le fetched cache⟩
  intro r k hk
  unfold itemIdOf at hk
  cases hl : r.lookup "itemId" with
  | none => simp [hl] at hk
  | some s =>
      simp only [hl] at hk
      by_cases hs : s = ""
      · simp [hs] at hk
      · rw [if_neg hs] at hk
        exact (Option.some.inj hk) ▸ hs

/-- Claim C10 witness: the theorem applied to a concrete refresh adding
one record with a truthy id on top of an empty cache. -/
theorem cache_loaned_books_keys_witness :
    ("id1" : String) ≠ "" ∧
    (cache_loaned_books [] [[("itemId", "id1")]]).length ≤
      ([] : LoanCache).length +
        (([[("itemId", "id1")]] : List PatronRecord).filter
          (fun r => (itemIdOf r).isSome)).length :=
  ⟨(cache_loaned_books_keys [] [[("itemId", "id1")]]).2.1 [("itemId", "id1")] "id1" (by decide),
   (cache_loaned_books_keys [] [[("itemId", "id1")]]).2.2⟩

/-! ## Claim C3: brief-metadata lookup -/

/-- Claim C3 counterexample: with an empty cache the call performs the
detail lookup and returns the fetched record, but the cache is NOT
populated — afterwards it still has no entry for the item. -/
theorem get_book_metadata_brief_counterexample :
    (get_book_metadata_brief [] "m1" true ⟨200, [("book", [("title", "T")])]⟩).result
      = .ok [("title", "T")] ∧
    (get_book_metadata_brief [] "m1" true ⟨200, [("book", [("title", "T")])]⟩).lookupPerformed
      = true ∧
    (get_book_metadata_brief [] "m1" true
        ⟨200, [("book", [("title", "T")])]⟩).cacheAfter.lookup "m1" = none := by
  refine ⟨by decide, by decide, by decide⟩

/-- Claim C3 (amended): with use_cache and a truthy cached entry, the call
returns the cached record with no lookup; on a miss (use_cache false, or no
truthy cached entry) it performs the detail lookup and, for a non-403
response, returns the fetched record when the response has a truthy book
field, or writes the raw response to the diagnostic dump and fails with
the not-found error when it lacks one; in every case the cache is left
unchanged — the fetched record is not inserted. -/
theorem get_book_metadata_brief_spec (cache : LoanCache) (mediaId : String)
    (useCache : Bool) (resp : DetailResp) :
    (∀ c, useCache = true → cache.lookup mediaId = some c → c ≠ [] →
        get_book_metadata_brief cache mediaId useCache resp = ⟨.ok c, false, none, cache⟩) ∧
    (truthy (if useCache then cache.lookup mediaId else none) = none → resp.status ≠ 403 →
        ∀ b, truthy (resp.body.lookup "book") = some b →
          get_book_metadata_brief cache mediaId useCache resp = ⟨.ok b, true, none, cache⟩) ∧
    (truthy (if useCache then cache.lookup mediaId else none) = none → resp.status ≠ 403 →
        truthy (resp.body.lookup "book") = none →
          get_book_metadata_brief cache mediaId useCache resp
            = ⟨.notFoundBook, true, some resp.body, cache⟩) ∧
    ((get_book_metadata_brief cache mediaId useCache resp).cacheAfter = cache) := by
  refine ⟨?_, ?_, ?_, ?_⟩
  · intro c hu hl hc
    subst hu
    simp [get_book_metadata_brief, truthy, hl, hc]
  · intro hmiss hstat b hbook
    simp [get_book_metadata_brief, hmiss, hstat, hbook]
  · intro hmiss hstat hbook
    simp [get_book_metadata_brief, hmiss, hstat, hbook]
  · unfold get_book_metadata_brief
    split
    · rfl
    · split
      · rfl
      · split <;> rfl

/-- Claim C3 witness: the theorem applied to a truthy cache hit, which is
returned without a lookup and without touching the cache. -/
theorem get_book_metadata_brief_spec_witness :
    get_book_metadata_brief [("m1", [("title", "T")])] "m1" true ⟨200, []⟩
      = ⟨.ok [("title", "T")], false, none, [("m1", [("title", "T")])]⟩ :=
  (get_book_metadata_brief_spec [("m1", [("title", "T")])] "m1" true ⟨200, []⟩).1
    [("title", "T")] rfl (by decide) (by decide)
